import Mathlib

/-!
Verification of the Media Store Service (Don's Media Archive API).

The service is a thin CRUD layer over one SQLite table
`media(id PK autoincrement, title, artist, location, format)`, exposing
list, create, search and delete operations. Below it is embedded shallowly:
the database is a list of rows plus the AUTOINCREMENT sequence counter,
each HTTP handler becomes a pure function from the database state (and the
parsed request) to the next state and a response value, and SQLite's
`LIKE` operator is modelled character by character (ASCII-case-insensitive,
with the `%` and `_` wildcards, as SQLite implements it for the default
`like()` function).
-/

namespace DonsMusic

/-- ASCII lowercase folding: the case folding SQLite's built-in `LIKE`
applies (only the 26 ASCII upper-case letters are folded). -/
def lowerAscii (c : Char) : Char :=
  if 'A' ≤ c ∧ c ≤ 'Z' then Char.ofNat (c.toNat + 32) else c

/-- `anySuffix k s` holds when `k` holds of some suffix of `s`
(including `s` itself and the empty suffix). -/
def anySuffix (k : List Char → Bool) : List Char → Bool
  | [] => k []
  | c :: cs => k (c :: cs) || anySuffix k cs

/-- SQLite `LIKE` pattern matching over character lists: first argument is
the pattern, second the string. `%` matches any (possibly empty) sequence,
`_` matches exactly one character, every other pattern character matches
ASCII-case-insensitively. -/
def likeChars : List Char → List Char → Bool
  | [], s => s.isEmpty
  | p :: ps, s =>
    if p = '%' then anySuffix (likeChars ps) s
    else
      match s with
      | [] => false
      | c :: cs => (decide (p = '_') || (lowerAscii p == lowerAscii c)) && likeChars ps cs

/-- `s LIKE pat` for strings. -/
def sqliteLike (s pat : String) : Bool :=
  likeChars pat.data s.data

/-- A persisted row of the `media` table. All four text columns are
`NOT NULL`, so a persisted row always carries actual strings. -/
structure Row where
  id : Nat
  title : String
  artist : String
  location : String
  format : String
deriving DecidableEq, Repr

/-- Database state: the rows of the `media` table together with the
AUTOINCREMENT sequence (largest id ever assigned; SQLite never reuses it). -/
structure DB where
  rows : List Row
  seq : Nat
deriving DecidableEq, Repr

/-- `init_db` creates the (empty) `media` table. -/
def init_db : DB := { rows := [], seq := 0 }

/-- `VALID_FORMATS = ['CD', 'Vinyl', 'Tape']`. -/
def VALID_FORMATS : List String := ["CD", "Vinyl", "Tape"]

/-- The JSON payload of a create request, read with `data.get(...)`:
each field is absent (`none`) or a string. -/
structure Payload where
  title : Option String
  artist : Option String
  location : Option String
  format : Option String
deriving DecidableEq, Repr

/-- `data.get("format") not in VALID_FORMATS`, negated: the service-layer
format check of `MediaList.post` (an absent field yields `None`, which is
not in the list). -/
def formatOk (data : Payload) : Bool :=
  match data.format with
  | some f => VALID_FORMATS.contains f
  | none => false

/-- Response of `MediaList.post`. -/
inductive PostResp where
  /-- `{"id": new_id}, 201` -/
  | created (id : Nat)
  /-- `{"error": "Invalid format. ...", "code": 400}, 400` -/
  | invalidFormat
  /-- `sqlite3.IntegrityError` (NOT NULL violation) handler: `500` -/
  | integrityError
deriving DecidableEq, Repr

/-- HTTP status of a create response. -/
def PostResp.status : PostResp → Nat
  | .created _ => 201
  | .invalidFormat => 400
  | .integrityError => 500

/-- Response of `MediaResource.delete`. -/
inductive DeleteResp where
  /-- `{"message": f"Media {media_id} deleted successfully"}, 200` -/
  | deleted (msg : String)
  /-- `{"error": "Media not found", "code": 404}, 404` -/
  | notFound
deriving DecidableEq, Repr

/-- HTTP status of a delete response. -/
def DeleteResp.status : DeleteResp → Nat
  | .deleted _ => 200
  | .notFound => 404

/-- Response of `MediaSearch.get`. -/
inductive SearchResp where
  /-- matching rows, `200` -/
  | ok (rows : List Row)
  /-- `{"error": "Missing 'query' parameter", "code": 400}, 400` -/
  | missingQuery
deriving DecidableEq, Repr

/-- HTTP status of a search response. -/
def SearchResp.status : SearchResp → Nat
  | .ok _ => 200
  | .missingQuery => 400

/-- The rows carried by a successful search response (`[]` on error). -/
def SearchResp.found : SearchResp → List Row
  | .ok rs => rs
  | .missingQuery => []

/-- `MediaList.get`: `SELECT * FROM media`, returned with status 200. -/
def MediaList.get (db : DB) : List Row × Nat :=
  (db.rows, 200)

/-- `MediaList.post`: validate `format` against `VALID_FORMATS` (else 400),
then `INSERT INTO media (title, artist, location, format) VALUES (?,?,?,?)`.
A `None` among the remaining fields violates the `NOT NULL` column
constraints, raising `sqlite3.IntegrityError` (500) with no row stored;
otherwise the row is stored under the next AUTOINCREMENT id, which is
returned with status 201. -/
def MediaList.post (db : DB) (data : Payload) : DB × PostResp :=
  if formatOk data then
    match data.title, data.artist, data.location, data.format with
    | some t, some a, some l, some f =>
      let new_id := db.seq + 1
      ({ rows := db.rows ++ [{ id := new_id, title := t, artist := a,
                               location := l, format := f }],
         seq := new_id },
       PostResp.created new_id)
    | _, _, _, _ => (db, PostResp.integrityError)
  else (db, PostResp.invalidFormat)

/-- `MediaResource.delete`: `DELETE FROM media WHERE id = ?`; respond 404
when `cursor.rowcount` is 0, else 200 with a confirmation message. -/
def MediaResource.delete (db : DB) (media_id : Nat) : DB × DeleteResp :=
  let remaining := db.rows.filter (fun r => r.id != media_id)
  let deleted_count := db.rows.length - remaining.length
  if deleted_count = 0 then ({ db with rows := remaining }, DeleteResp.notFound)
  else ({ db with rows := remaining },
        DeleteResp.deleted ("Media " ++ toString media_id ++ " deleted successfully"))

/-- The `WHERE` clause of the search query:
`title LIKE ? OR artist LIKE ? OR location LIKE ? OR format LIKE ?`. -/
def matchesLike (like : String) (r : Row) : Bool :=
  sqliteLike r.title like || sqliteLike r.artist like ||
    sqliteLike r.location like || sqliteLike r.format like

/-- `MediaSearch.get`: reject an absent or empty `query` parameter with
400 (`if not query`), otherwise filter with `LIKE f"%{query}%"` on the
four text columns, OR-combined, and answer 200. -/
def MediaSearch.get (db : DB) (query : Option String) : SearchResp :=
  match query with
  | none => SearchResp.missingQuery
  | some q =>
    if q = "" then SearchResp.missingQuery
    else SearchResp.ok (db.rows.filter (matchesLike ("%" ++ q ++ "%")))

/-- One inbound request, as far as the database state is concerned. -/
inductive Op where
  | opList
  | opPost (p : Payload)
  | opSearch (q : Option String)
  | opDelete (i : Nat)
deriving DecidableEq, Repr

/-- The state effect of one request. -/
def applyOp (db : DB) : Op → DB
  | .opList => db
  | .opPost p => (MediaList.post db p).1
  | .opSearch _ => db
  | .opDelete i => (MediaResource.delete db i).1

/-- The state after a sequence of requests. -/
def run (db : DB) : List Op → DB
  | [] => db
  | op :: ops => run (applyOp db op) ops

/-- A database state the service can actually be in: produced from the
freshly initialized store by some sequence of requests. -/
def Reachable (db : DB) : Prop := ∃ ops, run init_db ops = db

/- Spec-side notions, used to compare the code's behaviour against the
specification's wording. -/

/-- `isPrefixCh q s`: `q` is a prefix of `s` (character lists). -/
def isPrefixCh : List Char → List Char → Bool
  | [], _ => true
  | _ :: _, [] => false
  | a :: as, b :: bs => (a == b) && isPrefixCh as bs

/-- `isInfixCh q s`: `q` occurs contiguously inside `s` (character lists). -/
def isInfixCh (q : List Char) : List Char → Bool
  | [] => q.isEmpty
  | c :: cs => isPrefixCh q (c :: cs) || isInfixCh q cs

/-- Modelled from the spec: `q` is a case-insensitive substring of `s`
(ASCII case folding, the case-insensitivity SQLite `LIKE` provides). -/
def substrCI (q s : String) : Bool :=
  isInfixCh (q.data.map lowerAscii) (s.data.map lowerAscii)

/-- Modelled from the spec: the row matches the query literally, i.e. the
query is a case-insensitive substring of at least one of
title/artist/location/format. -/
def literalMatch (q : String) (r : Row) : Bool :=
  substrCI q r.title || substrCI q r.artist ||
    substrCI q r.location || substrCI q r.format

/-- `q` contains no SQL `LIKE` wildcard (`%` or `_`). -/
def noWildStr (q : String) : Bool :=
  q.data.all (fun c => !(c == '%') && !(c == '_'))

/-- `sub` occurs in `s` as a contiguous substring. -/
def containsStr (s sub : String) : Bool :=
  isInfixCh sub.data s.data

/-- Per-row part of the data-model invariant the code maintains: the
format column holds one of the enumerated formats. -/
def Inv (db : DB) : Prop :=
  ∀ r ∈ db.rows, r.format ∈ VALID_FORMATS

/-- The invariant making AUTOINCREMENT ids work: ids are pairwise distinct
and bounded by the sequence counter. -/
def GoodDB (db : DB) : Prop :=
  (db.rows.map Row.id).Nodup ∧ ∀ r ∈ db.rows, r.id ≤ db.seq

/-! ### The `LIKE '%q%'` pattern versus literal substring search -/

theorem isPrefixCh_nil_right (q : List Char) : isPrefixCh q [] = q.isEmpty := by
  cases q <;> rfl

theorem anySuffix_isEmpty (t : List Char) : anySuffix (fun x => x.isEmpty) t = true := by
  induction t with
  | nil => rfl
  | cons c cs ih => simp [anySuffix, ih]

/-- A wildcard-free pattern followed by `%` matches a string iff the
pattern is a case-folded prefix of the string. -/
theorem likeChars_append_percent (q : List Char)
    (hq : q.all (fun c => !(c == '%') && !(c == '_')) = true) (t : List Char) :
    likeChars (q ++ ['%']) t = isPrefixCh (q.map lowerAscii) (t.map lowerAscii) := by
  induction q generalizing t with
  | nil =>
    simp only [List.nil_append, List.map_nil, isPrefixCh]
    simp [likeChars, anySuffix_isEmpty t]
  | cons a q ih =>
    simp only [List.all_cons, Bool.and_eq_true, Bool.not_eq_true', beq_eq_false_iff_ne,
      ne_eq] at hq
    obtain ⟨⟨ha1, ha2⟩, hq⟩ := hq
    cases t with
    | nil => simp [likeChars, isPrefixCh, ha1]
    | cons c cs => simp [likeChars, isPrefixCh, ha1, ha2, ih hq cs]

/-- If `k` decides whether `lq` is a prefix of (the case folding of) its
argument, then `anySuffix k` decides whether `lq` occurs as an infix. -/
theorem anySuffix_isInfixCh (k : List Char → Bool) (lq : List Char)
    (hk : ∀ t, k t = isPrefixCh lq (t.map lowerAscii)) (s : List Char) :
    anySuffix k s = isInfixCh lq (s.map lowerAscii) := by
  induction s with
  | nil => simp [anySuffix, hk, isInfixCh, isPrefixCh_nil_right]
  | cons c cs ih => simp [anySuffix, hk, isInfixCh, ih]

/-- For a wildcard-free query `q`, the SQL pattern `%q%` matches a string
exactly when `q` occurs in it as an ASCII-case-insensitive substring. -/
theorem likeChars_wrap_eq_infix (q : List Char)
    (hq : q.all (fun c => !(c == '%') && !(c == '_')) = true) (s : List Char) :
    likeChars ('%' :: (q ++ ['%'])) s = isInfixCh (q.map lowerAscii) (s.map lowerAscii) := by
  show (if '%' = '%' then anySuffix (likeChars (q ++ ['%'])) s else _) = _
  rw [if_pos rfl]
  exact anySuffix_isInfixCh _ _ (likeChars_append_percent q hq) s

theorem wrap_data (q : String) : ("%" ++ q ++ "%").data = '%' :: (q.data ++ ['%']) := by
  simp [String.data_append]

/-- For a wildcard-free query, the search `WHERE` clause agrees with
literal case-insensitive substring matching on every row. -/
theorem matchesLike_eq_literalMatch (q : String) (hq : noWildStr q = true) (r : Row) :
    matchesLike ("%" ++ q ++ "%") r = literalMatch q r := by
  unfold matchesLike literalMatch sqliteLike substrCI
  rw [wrap_data, likeChars_wrap_eq_infix q.data hq, likeChars_wrap_eq_infix q.data hq,
    likeChars_wrap_eq_infix q.data hq, likeChars_wrap_eq_infix q.data hq]

/-- For a nonempty wildcard-free query, search succeeds and returns
exactly the rows with a literal case-insensitive substring match. -/
theorem search_eq_literal_filter (db : DB) (q : String) (hne : q ≠ "")
    (hw : noWildStr q = true) :
    MediaSearch.get db (some q) = SearchResp.ok (db.rows.filter (literalMatch q)) := by
  show (if q = "" then SearchResp.missingQuery
        else SearchResp.ok (db.rows.filter (matchesLike ("%" ++ q ++ "%")))) = _
  rw [if_neg hne]
  exact congrArg SearchResp.ok
    (List.filter_congr (fun r _ => matchesLike_eq_literalMatch q hw r))

/-! ### Shape lemmas for create and delete -/

/-- Whatever branch it takes, `DELETE FROM media WHERE id = ?` leaves the
state with the matching rows filtered out and the sequence untouched. -/
theorem delete_fst (db : DB) (i : Nat) :
    (MediaResource.delete db i).1 = { db with rows := db.rows.filter (fun r => r.id != i) } := by
  simp only [MediaResource.delete]
  split <;> rfl

/-- Exhaustive case analysis of `MediaList.post`: invalid format (400,
state unchanged), missing text field (500, state unchanged), or success
(201 with the next AUTOINCREMENT id, one row appended). -/
theorem post_cases (db : DB) (p : Payload) :
    (formatOk p = false ∧ MediaList.post db p = (db, PostResp.invalidFormat))
  ∨ (formatOk p = true ∧ (p.title = none ∨ p.artist = none ∨ p.location = none)
      ∧ MediaList.post db p = (db, PostResp.integrityError))
  ∨ (∃ t a l f, formatOk p = true ∧ p.title = some t ∧ p.artist = some a
      ∧ p.location = some l ∧ p.format = some f
      ∧ MediaList.post db p =
        ({ rows := db.rows ++ [{ id := db.seq + 1, title := t, artist := a,
                                 location := l, format := f }],
           seq := db.seq + 1 },
         PostResp.created (db.seq + 1))) := by
  by_cases hfok : formatOk p = true
  · cases ht : p.title with
    | none => exact Or.inr (Or.inl ⟨hfok, Or.inl rfl, by simp [MediaList.post, hfok, ht]⟩)
    | some t =>
      cases ha : p.artist with
      | none =>
        exact Or.inr (Or.inl ⟨hfok, Or.inr (Or.inl rfl), by simp [MediaList.post, hfok, ht, ha]⟩)
      | some a =>
        cases hl : p.location with
        | none =>
          exact Or.inr (Or.inl ⟨hfok, Or.inr (Or.inr rfl),
            by simp [MediaList.post, hfok, ht, ha, hl]⟩)
        | some l =>
          cases hfo : p.format with
          | none => exact absurd (by simp [formatOk, hfo] : formatOk p = false) (by simp [hfok])
          | some f =>
            exact Or.inr (Or.inr ⟨t, a, l, f, hfok, rfl, rfl, rfl, rfl,
              by simp [MediaList.post, hfok, ht, ha, hl, hfo]⟩)
  · exact Or.inl ⟨Bool.eq_false_iff.mpr hfok, by simp [MediaList.post, hfok]⟩

/-- A successful create assigned the next sequence value as id, bumped the
sequence, and appended exactly one row carrying the payload's fields. -/
theorem post_created_eq (db : DB) (p : Payload) (i : Nat)
    (h : (MediaList.post db p).2 = PostResp.created i) :
    i = db.seq + 1 ∧ (MediaList.post db p).1.seq = db.seq + 1 := by
  rcases post_cases db p with ⟨_, he⟩ | ⟨_, _, he⟩ | ⟨t, a, l, f, _, _, _, _, _, he⟩ <;>
    (rw [he] at h ⊢; simp_all)

/-- Every operation leaves the AUTOINCREMENT sequence the same or larger. -/
theorem seq_le_applyOp (db : DB) (op : Op) : db.seq ≤ (applyOp db op).seq := by
  cases op with
  | opList => exact Nat.le_refl _
  | opSearch q => exact Nat.le_refl _
  | opDelete i =>
    simp only [applyOp, delete_fst]
    exact Nat.le_refl _
  | opPost p =>
    simp only [applyOp]
    rcases post_cases db p with ⟨_, he⟩ | ⟨_, _, he⟩ | ⟨t, a, l, f, _, _, _, _, _, he⟩ <;>
      simp [he]

theorem seq_le_run (db : DB) (ops : List Op) : db.seq ≤ (run db ops).seq := by
  induction ops generalizing db with
  | nil => exact Nat.le_refl _
  | cons op ops ih => exact Nat.le_trans (seq_le_applyOp db op) (ih (applyOp db op))

theorem run_append (db : DB) (xs ys : List Op) :
    run db (xs ++ ys) = run (run db xs) ys := by
  induction xs generalizing db with
  | nil => rfl
  | cons op xs ih => exact ih (applyOp db op)

/-- When no row carries the id, the `DELETE` filter keeps every row. -/
theorem filter_ne_id_eq_self (rows : List Row) (i : Nat)
    (h : ∀ x ∈ rows, x.id ≠ i) :
    rows.filter (fun x => x.id != i) = rows :=
  List.filter_eq_self.mpr (fun x hx => bne_iff_ne.mpr (h x hx))

/-- With pairwise-distinct ids, deleting an existing id removes exactly
one row. -/
theorem filter_ne_id_length (rows : List Row) (i : Nat)
    (hnd : (rows.map Row.id).Nodup) (r : Row) (hr : r ∈ rows) (hid : r.id = i) :
    (rows.filter (fun x => x.id != i)).length + 1 = rows.length := by
  induction rows with
  | nil => cases hr
  | cons x xs ih =>
    simp only [List.map_cons, List.nodup_cons] at hnd
    obtain ⟨hx, hxs⟩ := hnd
    rcases List.mem_cons.mp hr with h | h
    · subst h
      have hne : ∀ y ∈ xs, y.id ≠ i := by
        intro y hy hyi
        exact hx (hid ▸ hyi ▸ List.mem_map_of_mem Row.id hy)
      rw [List.filter_cons_of_neg (by simp [hid]), filter_ne_id_eq_self xs i hne]
      rfl
    · have hxi : x.id ≠ i := by
        intro hxi
        exact hx (hxi ▸ hid ▸ List.mem_map_of_mem Row.id h)
      rw [List.filter_cons_of_pos (by simp [hxi])]
      simp only [List.length_cons]
      rw [ih hxs h]

/-! ### Preservation of the data-model invariants -/

/-- `formatOk` succeeds exactly on payloads whose format field holds a
member of `VALID_FORMATS`. -/
theorem formatOk_iff (p : Payload) :
    formatOk p = true ↔ ∃ f, p.format = some f ∧ f ∈ VALID_FORMATS := by
  unfold formatOk
  cases hfo : p.format with
  | none => simp
  | some f => simp [List.elem_iff]

theorem inv_applyOp (db : DB) (op : Op) (h : Inv db) : Inv (applyOp db op) := by
  cases op with
  | opList => exact h
  | opSearch q => exact h
  | opDelete i =>
    intro r hr
    rw [applyOp, delete_fst] at hr
    exact h r (List.mem_filter.mp hr).1
  | opPost p =>
    intro r hr
    rw [applyOp] at hr
    rcases post_cases db p with ⟨_, he⟩ | ⟨_, _, he⟩ | ⟨t, a, l, f, hfok, ht, ha, hl, hfo, he⟩ <;>
      rw [he] at hr
    · exact h r hr
    · exact h r hr
    · rcases List.mem_append.mp hr with hm | hm
      · exact h r hm
      · obtain ⟨g, hg, hgmem⟩ := (formatOk_iff p).mp hfok
        cases List.mem_singleton.mp hm
        have hgf : g = f := Option.some.inj (hg.symm.trans hfo)
        exact hgf ▸ hgmem

theorem goodDB_applyOp (db : DB) (op : Op) (h : GoodDB db) : GoodDB (applyOp db op) := by
  obtain ⟨hnd, hle⟩ := h
  cases op with
  | opList => exact ⟨hnd, hle⟩
  | opSearch q => exact ⟨hnd, hle⟩
  | opDelete i =>
    rw [applyOp, delete_fst]
    refine ⟨?_, ?_⟩
    · exact ((List.filter_sublist db.rows).map Row.id).nodup hnd
    · intro r hr
      exact hle r (List.mem_filter.mp hr).1
  | opPost p =>
    rw [applyOp]
    rcases post_cases db p with ⟨_, he⟩ | ⟨_, _, he⟩ | ⟨t, a, l, f, _, _, _, _, _, he⟩ <;>
      rw [he]
    · exact ⟨hnd, hle⟩
    · exact ⟨hnd, hle⟩
    · constructor
      · simp only [List.map_append, List.map_cons, List.map_nil]
        rw [List.nodup_append]
        refine ⟨hnd, List.nodup_singleton _, ?_⟩
        rw [List.disjoint_singleton]
        intro hmem
        obtain ⟨r, hr, hrid⟩ := List.mem_map.mp hmem
        have := hle r hr
        omega
      · intro r hr
        rcases List.mem_append.mp hr with hm | hm
        · exact Nat.le_succ_of_le (hle r hm)
        · cases List.mem_singleton.mp hm
          exact Nat.le_refl _

theorem goodDB_run (db : DB) (ops : List Op) (h : GoodDB db) : GoodDB (run db ops) := by
  induction ops generalizing db with
  | nil => exact h
  | cons op ops ih => exact ih (applyOp db op) (goodDB_applyOp db op h)

theorem goodDB_init : GoodDB init_db :=
  ⟨List.nodup_nil, fun r hr => absurd hr (List.not_mem_nil r)⟩

theorem goodDB_of_reachable (db : DB) (h : Reachable db) : GoodDB db := by
  obtain ⟨ops, hops⟩ := h
  exact hops ▸ goodDB_run init_db ops goodDB_init

/-! ### Substring and all-wildcard helper lemmas -/

theorem anySuffix_nil_true (k : List Char → Bool) (hk : k [] = true) (s : List Char) :
    anySuffix k s = true := by
  induction s with
  | nil => exact hk
  | cons c cs ih => simp [anySuffix, ih]

theorem anySuffix_true (k : List Char → Bool) (h : ∀ t, k t = true) (s : List Char) :
    anySuffix k s = true := by
  induction s with
  | nil => exact h []
  | cons c cs ih => simp [anySuffix, h, ih]

/-- A pattern consisting of a single `%` matches every string. -/
theorem likeChars_percent (cs : List Char) : likeChars ['%'] cs = true := by
  show anySuffix (likeChars []) cs = true
  exact anySuffix_nil_true _ rfl cs

/-- Prefixing a universally matching pattern with `%` keeps it universal. -/
theorem likeChars_percent_cons (ps : List Char) (h : ∀ cs, likeChars ps cs = true)
    (cs : List Char) : likeChars ('%' :: ps) cs = true := by
  show anySuffix (likeChars ps) cs = true
  exact anySuffix_true _ h cs

theorem isPrefixCh_self_append (q b : List Char) : isPrefixCh q (q ++ b) = true := by
  induction q with
  | nil => rfl
  | cons a as ih => simp [isPrefixCh, ih]

theorem isInfixCh_nil_left (s : List Char) : isInfixCh [] s = true := by
  cases s with
  | nil => rfl
  | cons c cs => simp [isInfixCh, isPrefixCh]

theorem isInfixCh_self_append (q b : List Char) : isInfixCh q (q ++ b) = true := by
  cases q with
  | nil => exact isInfixCh_nil_left b
  | cons x xs =>
    have h := isPrefixCh_self_append (x :: xs) b
    rw [List.cons_append] at h
    simp [isInfixCh, h]

theorem isInfixCh_append_left (q a s : List Char) (h : isInfixCh q s = true) :
    isInfixCh q (a ++ s) = true := by
  induction a with
  | nil => exact h
  | cons c cs ih => simp [isInfixCh, ih]

/-- A string built as `a ++ q ++ b` contains `q` as a substring. -/
theorem containsStr_mid (a q b : String) : containsStr (a ++ q ++ b) q = true := by
  unfold containsStr
  rw [String.data_append, String.data_append, List.append_assoc]
  exact isInfixCh_append_left q.data a.data (q.data ++ b.data) (isInfixCh_self_append q.data b.data)

/-! ### Branch lemmas for the delete and create handlers -/

/-- Deleting an id no row carries takes the 404 branch and leaves the
database untouched. -/
theorem delete_neg (db : DB) (i : Nat) (hno : ∀ r ∈ db.rows, r.id ≠ i) :
    MediaResource.delete db i = (db, DeleteResp.notFound) := by
  simp only [MediaResource.delete]
  rw [filter_ne_id_eq_self db.rows i hno]
  rw [if_pos (Nat.sub_self _)]

/-- Deleting an id some row carries (ids pairwise distinct) takes the 200
branch and filters the table. -/
theorem delete_pos (db : DB) (i : Nat) (hnd : (db.rows.map Row.id).Nodup)
    (r : Row) (hr : r ∈ db.rows) (hid : r.id = i) :
    MediaResource.delete db i =
      ({ db with rows := db.rows.filter (fun x => x.id != i) },
       DeleteResp.deleted ("Media " ++ toString i ++ " deleted successfully")) := by
  have hlen := filter_ne_id_length db.rows i hnd r hr hid
  simp only [MediaResource.delete]
  rw [if_neg (by omega)]

/-- The service-layer rejection: a payload whose format is absent or not
in `VALID_FORMATS` makes `MediaList.post` answer 400 with no state change. -/
theorem post_rejects_bad_format (db : DB) (p : Payload)
    (h : ∀ f, p.format = some f → f ∉ VALID_FORMATS) :
    MediaList.post db p = (db, PostResp.invalidFormat) := by
  have hfok : formatOk p = false := by
    rcases hb : formatOk p with _ | _
    · rfl
    · obtain ⟨f, hf, hmem⟩ := (formatOk_iff p).mp hb
      exact absurd hmem (h f hf)
  rcases post_cases db p with ⟨_, he⟩ | ⟨hf, _, _⟩ | ⟨t, a, l, f, hf, _, _, _, _, _⟩
  · exact he
  · rw [hfok] at hf; cases hf
  · rw [hfok] at hf; cases hf

/-- A fully populated payload with a valid format inserts one row under
the next AUTOINCREMENT id and answers 201. -/
theorem post_valid_eq (db : DB) (t a l f : String) (hf : f ∈ VALID_FORMATS) :
    MediaList.post db { title := some t, artist := some a, location := some l, format := some f }
      = ({ rows := db.rows ++ [{ id := db.seq + 1, title := t, artist := a,
                                 location := l, format := f }],
           seq := db.seq + 1 },
         PostResp.created (db.seq + 1)) := by
  have hfok : formatOk { title := some t, artist := some a,
                         location := some l, format := some f } = true :=
    (formatOk_iff _).mpr ⟨f, rfl, hf⟩
  simp [MediaList.post, hfok]

/-! ### Concrete states and payloads used by witnesses and counterexamples -/

/-- A row none of whose fields contains a percent sign or an underscore. -/
def rowCex : Row :=
  { id := 1, title := "abc", artist := "def", location := "Shelf", format := "CD" }

/-- A one-row database. -/
def dbCex : DB := { rows := [rowCex], seq := 1 }

/-- A payload that is valid except that its title is the empty string. -/
def emptyTitlePayload : Payload :=
  { title := some "", artist := some "a", location := some "b", format := some "CD" }

/-- The spec's concrete valid create payload. -/
def validPayload : Payload :=
  { title := some "Dark Side of the Moon", artist := some "Pink Floyd",
    location := some "Shelf Rock", format := some "Vinyl" }

/-- The spec's concrete invalid-format payload. -/
def badFormatPayload : Payload :=
  { title := some "X", artist := some "Y", location := some "Z", format := some "8-Track" }

/-- A payload with a valid format but no title. -/
def missingTitlePayload : Payload :=
  { title := none, artist := some "Y", location := some "Z", format := some "CD" }

/-- A lower-case-format payload (valid only up to letter case). -/
def lowerFormatPayload : Payload :=
  { title := some "X", artist := some "Y", location := some "Z", format := some "vinyl" }

/-- A row whose title "cat" matches the wildcard query "c_t". -/
def rowU : Row := { id := 1, title := "cat", artist := "x", location := "y", format := "CD" }

/-- The one-row database holding `rowU`. -/
def dbU : DB := { rows := [rowU], seq := 1 }

/-- ASCII-lower-cased copy of a string. -/
def lowerStr (s : String) : String := ⟨s.data.map lowerAscii⟩

/-! ### The claims -/

/-- C1 counterexample: the claim quantifies over every non-empty query,
but for the query "%" search succeeds and returns a row even though "%" is
not a case-insensitive literal substring of any of its four fields. -/
theorem search_literal_claim_cex :
    MediaSearch.get dbCex (some "%") = SearchResp.ok [rowCex] ∧
    literalMatch "%" rowCex = false := by decide

/-- C1 (amended): for every database state and every non-empty query
string containing no LIKE wildcard (`%` or `_`), search returns success
(200) with exactly the set of persisted rows in which the query occurs
case-insensitively as a substring of at least one of the title, artist,
location, or format fields; an empty result set is a success, not an
error. -/
theorem search_returns_literal_matches (db : DB) (q : String) (hne : q ≠ "")
    (hw : noWildStr q = true) :
    MediaSearch.get db (some q) = SearchResp.ok (db.rows.filter (literalMatch q)) ∧
    (MediaSearch.get db (some q)).status = 200 := by
  have h := search_eq_literal_filter db q hne hw
  exact ⟨h, by rw [h]; rfl⟩

theorem search_returns_literal_matches_witness :
    MediaSearch.get dbCex (some "cd") = SearchResp.ok (dbCex.rows.filter (literalMatch "cd")) ∧
    (MediaSearch.get dbCex (some "cd")).status = 200 :=
  search_returns_literal_matches dbCex "cd" (by decide) (by decide)

/-- C2 counterexample: create accepts a payload whose title is the empty
string (201), persisting a row whose title is not non-empty text, so the
claimed invariant fails after a create operation. -/
theorem empty_title_persisted_cex :
    MediaList.post init_db emptyTitlePayload =
      ({ rows := [{ id := 1, title := "", artist := "a", location := "b", format := "CD" }],
         seq := 1 },
       PostResp.created 1) ∧
    ((MediaList.post init_db emptyTitlePayload).1.rows.all (fun r => r.title == "")) = true := by
  decide

/-- C2 (amended): every operation (list, create, search, delete) preserves
the invariant that each persisted row has its format field a member of
{CD, Vinyl, Tape} (hence non-empty); title, artist and location are always
present (non-null) but may be empty strings. -/
theorem format_invariant_preserved (db : DB) (op : Op) (h : Inv db) :
    Inv (applyOp db op) ∧ ∀ r ∈ (applyOp db op).rows, r.format ≠ "" := by
  refine ⟨inv_applyOp db op h, fun r hr => ?_⟩
  have hm := inv_applyOp db op h r hr
  simp only [VALID_FORMATS, List.mem_cons, List.not_mem_nil, or_false] at hm
  rcases hm with h1 | h1 | h1 <;> rw [h1] <;> decide

theorem format_invariant_preserved_witness :
    Inv (applyOp init_db (Op.opPost validPayload)) ∧
    ∀ r ∈ (applyOp init_db (Op.opPost validPayload)).rows, r.format ≠ "" :=
  format_invariant_preserved init_db (Op.opPost validPayload)
    (fun r hr => absurd hr (List.not_mem_nil r))

/-- C3: a create whose format field is absent or not a member of
{CD, Vinyl, Tape} answers 400 before touching storage: the stored
table is unchanged. -/
theorem invalid_format_rejected (db : DB) (p : Payload)
    (h : ∀ f, p.format = some f → f ∉ VALID_FORMATS) :
    MediaList.post db p = (db, PostResp.invalidFormat) ∧
    PostResp.status (MediaList.post db p).2 = 400 ∧
    (MediaList.post db p).1.rows = db.rows := by
  have he := post_rejects_bad_format db p h
  rw [he]
  exact ⟨rfl, rfl, rfl⟩

theorem invalid_format_rejected_witness :
    MediaList.post dbCex badFormatPayload = (dbCex, PostResp.invalidFormat) ∧
    PostResp.status (MediaList.post dbCex badFormatPayload).2 = 400 ∧
    (MediaList.post dbCex badFormatPayload).1.rows = dbCex.rows :=
  invalid_format_rejected dbCex badFormatPayload
    (fun f hf => by cases hf; decide)

/-- C4: with a valid format but a missing title, artist or location, the
service layer does not reject the payload: the insert is attempted and
fails at the storage layer's NOT NULL constraint, answering a storage
fault (500), not a validation fault (400), and no row is persisted. -/
theorem missing_field_storage_fault (db : DB) (p : Payload)
    (hf : ∃ f, p.format = some f ∧ f ∈ VALID_FORMATS)
    (hm : p.title = none ∨ p.artist = none ∨ p.location = none) :
    MediaList.post db p = (db, PostResp.integrityError) ∧
    PostResp.status (MediaList.post db p).2 = 500 ∧
    PostResp.status (MediaList.post db p).2 ≠ 400 ∧
    (MediaList.post db p).1.rows = db.rows := by
  have hfok : formatOk p = true := (formatOk_iff p).mpr hf
  rcases post_cases db p with ⟨hff, _⟩ | ⟨_, _, he⟩ | ⟨t, a, l, f, _, ht, ha, hl, _, _⟩
  · rw [hfok] at hff; cases hff
  · rw [he]; exact ⟨rfl, rfl, by simp [PostResp.status], rfl⟩
  · rcases hm with hx | hx | hx
    · exact absurd (ht.symm.trans hx) (Option.some_ne_none t)
    · exact absurd (ha.symm.trans hx) (Option.some_ne_none a)
    · exact absurd (hl.symm.trans hx) (Option.some_ne_none l)

theorem missing_field_storage_fault_witness :
    MediaList.post dbCex missingTitlePayload = (dbCex, PostResp.integrityError) ∧
    PostResp.status (MediaList.post dbCex missingTitlePayload).2 = 500 ∧
    PostResp.status (MediaList.post dbCex missingTitlePayload).2 ≠ 400 ∧
    (MediaList.post dbCex missingTitlePayload).1.rows = dbCex.rows :=
  missing_field_storage_fault dbCex missingTitlePayload
    ⟨"CD", rfl, by decide⟩ (Or.inl rfl)

/-- C5: for a delete request on a table with pairwise-distinct ids: if a
row with the id exists, exactly one row is removed and the operation
answers 200 with a confirmation message that includes the id; if zero rows
were removed, it answers 404, a client-directed status, not a server
fault. -/
theorem delete_status_spec (db : DB) (i : Nat)
    (hnd : (db.rows.map Row.id).Nodup) :
    ((∃ r ∈ db.rows, r.id = i) →
      (MediaResource.delete db i).2 =
        DeleteResp.deleted ("Media " ++ toString i ++ " deleted successfully") ∧
      DeleteResp.status (MediaResource.delete db i).2 = 200 ∧
      (MediaResource.delete db i).1.rows.length + 1 = db.rows.length ∧
      containsStr ("Media " ++ toString i ++ " deleted successfully") (toString i) = true)
    ∧ ((∀ r ∈ db.rows, r.id ≠ i) →
      MediaResource.delete db i = (db, DeleteResp.notFound) ∧
      DeleteResp.status (MediaResource.delete db i).2 = 404) := by
  constructor
  · rintro ⟨r, hr, hid⟩
    have he := delete_pos db i hnd r hr hid
    rw [he]
    refine ⟨rfl, rfl, ?_, containsStr_mid "Media " (toString i) " deleted successfully"⟩
    exact filter_ne_id_length db.rows i hnd r hr hid
  · intro hno
    have he := delete_neg db i hno
    rw [he]
    exact ⟨rfl, rfl⟩

theorem delete_status_spec_witness :
    ((∃ r ∈ dbCex.rows, r.id = 1) →
      (MediaResource.delete dbCex 1).2 =
        DeleteResp.deleted ("Media " ++ toString 1 ++ " deleted successfully") ∧
      DeleteResp.status (MediaResource.delete dbCex 1).2 = 200 ∧
      (MediaResource.delete dbCex 1).1.rows.length + 1 = dbCex.rows.length ∧
      containsStr ("Media " ++ toString 1 ++ " deleted successfully") (toString 1) = true)
    ∧ ((∀ r ∈ dbCex.rows, r.id ≠ 1) →
      MediaResource.delete dbCex 1 = (dbCex, DeleteResp.notFound) ∧
      DeleteResp.status (MediaResource.delete dbCex 1).2 = 404) :=
  delete_status_spec dbCex 1 (by decide)

/-- C6: deleting an existing id (ids pairwise distinct) removes exactly
that row: every other row is still present and everything still present
was there before with a different id, a subsequent list contains no row
with the id, and a second delete of the same id answers 404 while the
first answered 200. -/
theorem delete_frame_idempotent (db : DB) (i : Nat) (r : Row)
    (hnd : (db.rows.map Row.id).Nodup) (hr : r ∈ db.rows) (hid : r.id = i) :
    DeleteResp.status (MediaResource.delete db i).2 = 200 ∧
    (∀ x ∈ db.rows, x.id ≠ i → x ∈ (MediaResource.delete db i).1.rows) ∧
    (∀ x ∈ (MediaResource.delete db i).1.rows, x ∈ db.rows ∧ x.id ≠ i) ∧
    (∀ x ∈ (MediaList.get (MediaResource.delete db i).1).1, x.id ≠ i) ∧
    MediaResource.delete (MediaResource.delete db i).1 i =
      ((MediaResource.delete db i).1, DeleteResp.notFound) ∧
    DeleteResp.status (MediaResource.delete (MediaResource.delete db i).1 i).2 = 404 := by
  have he := delete_pos db i hnd r hr hid
  have hmem : ∀ x ∈ (MediaResource.delete db i).1.rows, x ∈ db.rows ∧ x.id ≠ i := by
    intro x hx
    rw [he] at hx
    have hx' := List.mem_filter.mp hx
    exact ⟨hx'.1, bne_iff_ne.mp hx'.2⟩
  have hsecond : MediaResource.delete (MediaResource.delete db i).1 i =
      ((MediaResource.delete db i).1, DeleteResp.notFound) :=
    delete_neg _ i (fun x hx => (hmem x hx).2)
  refine ⟨by rw [he]; rfl, ?_, hmem, fun x hx => (hmem x hx).2, hsecond,
    by rw [hsecond]; rfl⟩
  intro x hx hxid
  rw [he]
  exact List.mem_filter.mpr ⟨hx, bne_iff_ne.mpr hxid⟩

theorem delete_frame_idempotent_witness :
    DeleteResp.status (MediaResource.delete dbCex 1).2 = 200 ∧
    (∀ x ∈ dbCex.rows, x.id ≠ 1 → x ∈ (MediaResource.delete dbCex 1).1.rows) ∧
    (∀ x ∈ (MediaResource.delete dbCex 1).1.rows, x ∈ dbCex.rows ∧ x.id ≠ 1) ∧
    (∀ x ∈ (MediaList.get (MediaResource.delete dbCex 1).1).1, x.id ≠ 1) ∧
    MediaResource.delete (MediaResource.delete dbCex 1).1 1 =
      ((MediaResource.delete dbCex 1).1, DeleteResp.notFound) ∧
    DeleteResp.status (MediaResource.delete (MediaResource.delete dbCex 1).1 1).2 = 404 :=
  delete_frame_idempotent dbCex 1 rowCex (by decide) (by decide) (by decide)

/-- C7: a create payload with all four fields supplied and a valid format
answers 201 carrying the newly assigned id, and a subsequent list, as well
as any matching wildcard-free search, yields a record with that id whose
title, artist, location and format equal the payload's values. -/
theorem create_then_visible (db : DB) (t a l f : String) (hf : f ∈ VALID_FORMATS) :
    (MediaList.post db
        { title := some t, artist := some a, location := some l, format := some f }).2
      = PostResp.created (db.seq + 1) ∧
    PostResp.status (MediaList.post db
        { title := some t, artist := some a, location := some l, format := some f }).2 = 201 ∧
    ({ id := db.seq + 1, title := t, artist := a, location := l, format := f } : Row)
      ∈ (MediaList.get (MediaList.post db
          { title := some t, artist := some a, location := some l, format := some f }).1).1 ∧
    ∀ q : String, q ≠ "" → noWildStr q = true →
      literalMatch q { id := db.seq + 1, title := t, artist := a, location := l,
                       format := f } = true →
      ({ id := db.seq + 1, title := t, artist := a, location := l, format := f } : Row)
        ∈ (MediaSearch.get (MediaList.post db
            { title := some t, artist := some a, location := some l,
              format := some f }).1 (some q)).found := by
  have he := post_valid_eq db t a l f hf
  rw [he]
  refine ⟨rfl, rfl, ?_, ?_⟩
  · exact List.mem_append_right db.rows (List.mem_singleton_self _)
  · intro q hne hw hlit
    rw [search_eq_literal_filter _ q hne hw]
    show _ ∈ List.filter (literalMatch q) (db.rows ++ [_])
    exact List.mem_filter.mpr
      ⟨List.mem_append_right db.rows (List.mem_singleton_self _), hlit⟩

theorem create_then_visible_witness :
    (MediaList.post init_db
        { title := some "Dark Side of the Moon", artist := some "Pink Floyd",
          location := some "Shelf Rock", format := some "Vinyl" }).2
      = PostResp.created (init_db.seq + 1) ∧
    PostResp.status (MediaList.post init_db
        { title := some "Dark Side of the Moon", artist := some "Pink Floyd",
          location := some "Shelf Rock", format := some "Vinyl" }).2 = 201 ∧
    ({ id := init_db.seq + 1, title := "Dark Side of the Moon", artist := "Pink Floyd",
       location := "Shelf Rock", format := "Vinyl" } : Row)
      ∈ (MediaList.get (MediaList.post init_db
          { title := some "Dark Side of the Moon", artist := some "Pink Floyd",
            location := some "Shelf Rock", format := some "Vinyl" }).1).1 ∧
    ∀ q : String, q ≠ "" → noWildStr q = true →
      literalMatch q { id := init_db.seq + 1, title := "Dark Side of the Moon",
                       artist := "Pink Floyd", location := "Shelf Rock",
                       format := "Vinyl" } = true →
      ({ id := init_db.seq + 1, title := "Dark Side of the Moon", artist := "Pink Floyd",
         location := "Shelf Rock", format := "Vinyl" } : Row)
        ∈ (MediaSearch.get (MediaList.post init_db
            { title := some "Dark Side of the Moon", artist := some "Pink Floyd",
              location := some "Shelf Rock", format := some "Vinyl" }).1 (some q)).found :=
  create_then_visible init_db "Dark Side of the Moon" "Pink Floyd" "Shelf Rock" "Vinyl"
    (by decide)

/-- C8: ids are server-generated, unique and monotonically assigned: from
any reachable state, a successful create followed (after any further
requests) by another successful create returns a strictly greater id the
second time, and neither the starting state nor the intermediate state
carries an id assigned to two distinct rows. -/
theorem ids_monotone_unique (db : DB) (hdb : Reachable db) (p1 p2 : Payload)
    (ops : List Op) (i1 i2 : Nat)
    (h1 : (MediaList.post db p1).2 = PostResp.created i1)
    (h2 : (MediaList.post (run (MediaList.post db p1).1 ops) p2).2 = PostResp.created i2) :
    i1 < i2 ∧ (db.rows.map Row.id).Nodup ∧
    ((run (MediaList.post db p1).1 ops).rows.map Row.id).Nodup := by
  obtain ⟨hi1, hseq1⟩ := post_created_eq db p1 i1 h1
  obtain ⟨hi2, _⟩ := post_created_eq _ p2 i2 h2
  have hg : GoodDB db := goodDB_of_reachable db hdb
  have hg1 : GoodDB (MediaList.post db p1).1 := goodDB_applyOp db (Op.opPost p1) hg
  have hg2 : GoodDB (run (MediaList.post db p1).1 ops) := goodDB_run _ ops hg1
  have hle : (MediaList.post db p1).1.seq ≤ (run (MediaList.post db p1).1 ops).seq :=
    seq_le_run _ ops
  exact ⟨by omega, hg.1, hg2.1⟩

theorem ids_monotone_unique_witness :
    (1 : Nat) < 2 ∧ (init_db.rows.map Row.id).Nodup ∧
    ((run (MediaList.post init_db validPayload).1 []).rows.map Row.id).Nodup :=
  ids_monotone_unique init_db ⟨[], rfl⟩ validPayload validPayload [] 1 2
    (by decide) (by decide)

/-- C9: the format membership check on create is case-sensitive: a payload
whose format equals a valid format up to letter case without being one is
rejected with 400 and nothing is persisted, even though search matches the
format field case-insensitively (a row with format "Vinyl" is found by the
query "vinyl"). -/
theorem format_check_case_sensitive (db : DB) (p : Payload) (f : String)
    (hp : p.format = some f)
    (_hlow : lowerStr f ∈ VALID_FORMATS.map lowerStr)
    (hne : f ∉ VALID_FORMATS) :
    MediaList.post db p = (db, PostResp.invalidFormat) ∧
    PostResp.status (MediaList.post db p).2 = 400 ∧
    (MediaList.post db p).1.rows = db.rows ∧
    ∀ (n i : Nat) (t a l : String),
      MediaSearch.get
          { rows := [{ id := i, title := t, artist := a, location := l,
                       format := "Vinyl" }], seq := n } (some "vinyl")
        = SearchResp.ok [{ id := i, title := t, artist := a, location := l,
                           format := "Vinyl" }] := by
  have he := post_rejects_bad_format db p
    (fun g hg => (Option.some.inj (hg.symm.trans hp) : g = f) ▸ hne)
  rw [he]
  refine ⟨rfl, rfl, rfl, ?_⟩
  intro n i t a l
  have hlike : sqliteLike "Vinyl" "%vinyl%" = true := by decide
  show (if ("vinyl" : String) = "" then SearchResp.missingQuery
        else SearchResp.ok (List.filter (matchesLike ("%" ++ "vinyl" ++ "%"))
          [{ id := i, title := t, artist := a, location := l, format := "Vinyl" }])) = _
  rw [if_neg (by decide)]
  rw [List.filter_cons_of_pos (by simp [matchesLike, hlike]), List.filter_nil]

theorem format_check_case_sensitive_witness :
    MediaList.post dbCex lowerFormatPayload = (dbCex, PostResp.invalidFormat) ∧
    PostResp.status (MediaList.post dbCex lowerFormatPayload).2 = 400 ∧
    (MediaList.post dbCex lowerFormatPayload).1.rows = dbCex.rows ∧
    ∀ (n i : Nat) (t a l : String),
      MediaSearch.get
          { rows := [{ id := i, title := t, artist := a, location := l,
                       format := "Vinyl" }], seq := n } (some "vinyl")
        = SearchResp.ok [{ id := i, title := t, artist := a, location := l,
                           format := "Vinyl" }] :=
  format_check_case_sensitive dbCex lowerFormatPayload "vinyl" rfl (by decide) (by decide)

/-- C10: LIKE wildcards in the search query are not escaped: the query "%"
returns every persisted row of any database state, and "_" matches any
single character, so a wildcard query can return a strict superset of the
literal case-insensitive substring matches (the query "c_t" finds the row
titled "cat", which contains no literal "c_t"). -/
theorem wildcard_query_unescaped (db : DB) :
    MediaSearch.get db (some "%") = SearchResp.ok db.rows ∧
    MediaSearch.get dbU (some "c_t") = SearchResp.ok [rowU] ∧
    literalMatch "c_t" rowU = false := by
  refine ⟨?_, by decide, by decide⟩
  have htriple : ∀ cs, likeChars ['%', '%', '%'] cs = true :=
    likeChars_percent_cons _ (likeChars_percent_cons _ likeChars_percent)
  have hall : ∀ r, matchesLike ("%" ++ "%" ++ "%") r = true := by
    intro r
    have h1 : ∀ s : String, sqliteLike s "%%%" = true := by
      intro s
      have hd : ("%%%" : String).data = ['%', '%', '%'] := by decide
      unfold sqliteLike
      rw [hd]
      exact htriple s.data
    simp [matchesLike, h1]
  show (if ("%" : String) = "" then SearchResp.missingQuery
        else SearchResp.ok (List.filter (matchesLike ("%" ++ "%" ++ "%")) db.rows)) = _
  rw [if_neg (by decide)]
  rw [List.filter_eq_self.mpr (fun r _ => hall r)]

end DonsMusic
